import Mathlib

/-!
Shallow embedding of the MesonPy core (src/MesonPy/Processor/RPC.py and
src/MesonPy/Communication/Pipeline.py) together with theorems settling the
specification claims about it.

Python values appearing in request payloads are modelled by `Value`; Python
dicts are modelled by association lists with unique keys (insertion order
preserved, as in Python 3); asyncio queues are modelled by FIFO lists; the
logger is modelled, where a claim mentions it, by an explicit outcome tag.
-/

/-- A payload value (payloads in this protocol carry JSON-style scalars). -/
inductive Value where
  | int (n : Int)
  | str (s : String)
  deriving DecidableEq, Repr

/-- The request payload: a mapping of protocol fields.  The fields the RPC
core reads are "method", "args" and "kargs"; `none` models an absent key. -/
structure Payload where
  method : Option String
  args : Option (List Value)
  kargs : Option (List (String × Value))
  deriving DecidableEq, Repr

/-- Errors raised by the RPC core (Python exceptions). -/
inductive PyError where
  | unknownRemoteProcedure (procedureName : String)
  | keyError (key : String)
  | handlerError (msg : String)
  deriving DecidableEq, Repr

/-- The concrete argument binding of a Python call `method(*args, **kargs)`:
the positional argument list and the keyword argument mapping. -/
structure Call where
  pos : List Value
  kw : List (String × Value)
  deriving DecidableEq, Repr

/-- `inspect.getfullargspec` result restricted to the fields the code reads:
declared positional-or-keyword parameter names and keyword-only names. -/
structure FullArgSpec where
  args : List String
  kwonlyargs : List String
  deriving DecidableEq, Repr

/-- A registered Python handler: its introspectable signature and its
behaviour (a function from the call binding to a result or a raised error). -/
structure PyMethod where
  argspec : FullArgSpec
  call : Call → Except PyError Value

/-- Request/Instruction context (the object dispatched through the RPC
processor): session handle, payload, result slot `ret`, error slot, and the
number of times `done()` has been signalled on it. -/
structure InstructionCtx where
  session : Value
  payload : Payload
  ret : Option Value := none
  error : Option PyError := none
  doneCount : Nat := 0
  deriving DecidableEq, Repr

/-- `instructionCtx.done()` — signal completion once more. -/
def InstructionCtx.done (c : InstructionCtx) : InstructionCtx :=
  { c with doneCount := c.doneCount + 1 }

/-- asyncio.Queue.put on the FIFO list model. -/
def queuePut {α : Type} (q : List α) (x : α) : List α := q ++ [x]

/-- asyncio.Queue.get on the FIFO list model: `none` when the queue is empty
(the coroutine would suspend). -/
def queueGet {α : Type} (q : List α) : Option (α × List α) :=
  match q with
  | [] => none
  | x :: rest => some (x, rest)

/-- RPCInstruction: a (methodName, method) binding. -/
structure RPCInstruction where
  methodName : String
  method : PyMethod

/-- RPCInstruction.canHandleInstruction: the payload carries a "method" field
equal to this binding's name. -/
def RPCInstruction.canHandleInstruction (inst : RPCInstruction) (ctx : InstructionCtx) : Bool :=
  match ctx.payload.method with
  | some m => m == inst.methodName
  | none => false

/-- Python-dict insertion `d[k] = v` on the association-list model: replace
in place when the key is present (keeping its position), append otherwise. -/
def dictInsert (d : List (String × RPCInstruction)) (k : String) (v : RPCInstruction) :
    List (String × RPCInstruction) :=
  if d.any (fun p => p.1 == k) then d.map (fun p => if p.1 == k then (k, v) else p)
  else d ++ [(k, v)]

/-- Outcome tag recording which branch of `findSuitableInstruction` ran (the
logger side channel: `noneFound` logs a warning, `ambiguous` logs an error). -/
inductive MatchOutcome where
  | noneFound
  | unique
  | ambiguous
  deriving DecidableEq, Repr

/-- The RPC Processor state: the name-keyed instruction dict, the execution
queue, and the single-slot idle future (`none` absent, `some none` pending,
`some (some c)` fulfilled with `c`). -/
structure RPCProcessor where
  instructions : List (String × RPCInstruction)
  executionQueue : List InstructionCtx
  idleFuture : Option (Option InstructionCtx)

/-- RPCProcessor.__init__. -/
def RPCProcessor.new : RPCProcessor :=
  { instructions := [], executionQueue := [], idleFuture := none }

/-- RPCProcessor.register: `self.instructions[name] = RPCInstruction(name, method)`. -/
def RPCProcessor.register (p : RPCProcessor) (name : String) (method : PyMethod) :
    RPCProcessor :=
  { p with instructions := dictInsert p.instructions name ⟨name, method⟩ }

/-- The `suitableInstructions` list built by the loop in
`findSuitableInstruction`: the dict's values, in insertion order, that can
handle the context. -/
def suitableInstructions (reg : List (String × RPCInstruction)) (ctx : InstructionCtx) :
    List RPCInstruction :=
  (reg.map Prod.snd).filter (fun inst => inst.canHandleInstruction ctx)

/-- RPCProcessor.findSuitableInstruction: zero matches returns None (warning
logged); more than one match logs an error and falls through, returning None;
exactly one match is returned. -/
def findSuitableInstruction (reg : List (String × RPCInstruction)) (ctx : InstructionCtx) :
    Option RPCInstruction × MatchOutcome :=
  let s := suitableInstructions reg ctx
  if s.length = 0 then (none, .noneFound)
  else if s.length > 1 then (none, .ambiguous)
  else (s.head?, .unique)

/-- The Python values `self.args` can take in RPCExecutionContext: a dict
(the payload's keyword-argument map) or a list (its positional list). -/
inductive PyArgs where
  | dict (d : List (String × Value))
  | list (l : List Value)
  deriving DecidableEq, Repr

/-- RPCExecutionContext state after `__init__`: the session handle copied
from the instruction context and the derived `self.args`. -/
structure RPCExecutionContext where
  session : Value
  args : PyArgs

/-- RPCExecutionContext.__init__: `if "kargs" in payload and payload["kargs"]`
(present and non-empty) take the keyword map; `elif "args" in payload and
payload["args"]` take the positional list; else the empty list. -/
def RPCExecutionContext.ofCtx (ctx : InstructionCtx) : RPCExecutionContext :=
  { session := ctx.session
    args :=
      if (ctx.payload.kargs.getD []) ≠ [] then .dict (ctx.payload.kargs.getD [])
      else if (ctx.payload.args.getD []) ≠ [] then .list (ctx.payload.args.getD [])
      else .list [] }

/-- Python dict merge `\x7b**a, **b\x7d`: keys of `a` keep their position but take
`b`'s value on collision; keys only in `b` are appended in `b`'s order. -/
def dictMerge (a b : List (String × Value)) : List (String × Value) :=
  a.map (fun p => match b.lookup p.1 with | some v => (p.1, v) | none => p) ++
    b.filter (fun p => (a.lookup p.1).isNone)

/-- The session-injection dict built at the top of RPCExecutionContext.execute:
`kargs["__session__"] = self.session` when the reserved name occurs among the
method's declared args or kwonlyargs, else the empty dict. -/
def sessionKargs (m : PyMethod) (session : Value) : List (String × Value) :=
  if m.argspec.args.contains "__session__" || m.argspec.kwonlyargs.contains "__session__"
  then [("__session__", session)] else []

/-- The argument binding computed by RPCExecutionContext.execute just before
the final line `method(*args, **kargs)`: a dict-valued `self.args` is merged
into the keyword arguments (`kargs = \x7b**kargs, **self.args\x7d`), a list-valued
one extends the positional arguments (`args = args + self.args`). -/
def RPCExecutionContext.bindArgs (ec : RPCExecutionContext) (m : PyMethod) : Call :=
  let kargs0 := sessionKargs m ec.session
  match ec.args with
  | .dict d => { pos := [], kw := dictMerge kargs0 d }
  | .list l => { pos := l, kw := kargs0 }

/-- RPCExecutionContext.execute: bind the arguments and invoke the method. -/
def RPCExecutionContext.execute (ec : RPCExecutionContext) (m : PyMethod) :
    Except PyError Value :=
  m.call (ec.bindArgs m)

/-- The body of RPCProcessor.step after the execution-queue dequeue, acting on
the dequeued context: resolve an instruction; when unresolved raise
UnknownRemoteProcedure(payload["method"]) (a KeyError if the field is absent);
when resolved run the handler through a fresh execution context and store the
return value; any exception is recorded on the context's error field and
re-raised; the finally block signals `done()` on every path. -/
def RPCProcessor.stepBody (p : RPCProcessor) (ctx : InstructionCtx) :
    InstructionCtx × Except PyError Unit :=
  match (findSuitableInstruction p.instructions ctx).1 with
  | none =>
    let e := match ctx.payload.method with
      | some m => PyError.unknownRemoteProcedure m
      | none => PyError.keyError "method"
    (({ ctx with error := some e }).done, .error e)
  | some inst =>
    match (RPCExecutionContext.ofCtx ctx).execute inst.method with
    | .ok v => (({ ctx with ret := some v }).done, .ok ())
    | .error e => (({ ctx with error := some e }).done, .error e)

/-- RPCProcessor.step: dequeue the next request context (suspending — `none` —
when the queue is empty) and process it.  Returns the new processor state, the
dequeued context, the finalized context and the propagated outcome. -/
def RPCProcessor.step (p : RPCProcessor) :
    Option (RPCProcessor × InstructionCtx × InstructionCtx × Except PyError Unit) :=
  match queueGet p.executionQueue with
  | none => none
  | some (ctx, rest) =>
    let out := RPCProcessor.stepBody p ctx
    some ({ p with executionQueue := rest }, ctx, out.1, out.2)

/-- RPCProcessor.co_push: put the context on the execution queue, then fulfil
the idle future when one is present.  The second component models the
InvalidStateError `set_result` raises when the future is already fulfilled
(the queue put has already happened at that point). -/
def RPCProcessor.co_push (p : RPCProcessor) (ctx : InstructionCtx) :
    RPCProcessor × Option String :=
  let p1 := { p with executionQueue := queuePut p.executionQueue ctx }
  match p1.idleFuture with
  | none => (p1, none)
  | some none => ({ p1 with idleFuture := some (some ctx) }, none)
  | some (some _) => (p1, some "InvalidStateError")

/-- Result of entering RPCProcessor.idle: either it returns immediately (queue
non-empty) or it parks on a freshly created pending future. -/
inductive IdleEnter where
  | immediate (p : RPCProcessor)
  | parked (p : RPCProcessor)

/-- First half of RPCProcessor.idle, up to the suspension point: when the
execution queue is empty, install a fresh pending future and park on it;
otherwise return immediately, touching nothing. -/
def RPCProcessor.idle_enter (p : RPCProcessor) : IdleEnter :=
  if p.executionQueue = [] then .parked { p with idleFuture := some none }
  else .immediate p

/-- Second half of RPCProcessor.idle, after `yield from self.idleFuture`
resumes: only a fulfilled future resumes the waiter, which then clears
`self.idleFuture = None`.  Returns the value the future was fulfilled with. -/
def RPCProcessor.idle_resume (p : RPCProcessor) : Option (InstructionCtx × RPCProcessor) :=
  match p.idleFuture with
  | some (some c) => some (c, { p with idleFuture := none })
  | _ => none

/-- A sequence of RPCProcessor.push calls (each schedules its co_push in call
order on the event loop, so the state effects apply in call order). -/
def RPCProcessor.pushAll (p : RPCProcessor) (cs : List InstructionCtx) : RPCProcessor :=
  cs.foldl (fun q c => (q.co_push c).1) p

/-- The contexts dequeued by `n` successive step() calls (stopping early if
the queue empties). -/
def RPCProcessor.stepsDequeued : RPCProcessor → Nat → List InstructionCtx
  | _, 0 => []
  | p, n + 1 =>
    match p.step with
    | none => []
    | some (p1, c, _, _) => c :: p1.stepsDequeued n

/-- The websocket's `state_name` values the code consults. -/
inductive WsStateName where
  | OPEN
  | CLOSING
  | CLOSED
  deriving DecidableEq, Repr

/-- CommunicationPipeline state: the closed-flag `_close`, the two FIFO
queues, and the underlying websocket modelled by its state name and a count
of `websocket.close()` invocations. -/
structure PipelineState where
  _close : Bool
  sendQueue : List String
  receivedQueue : List String
  wsState : WsStateName
  wsCloseCalls : Nat
  deriving DecidableEq, Repr

/-- CommunicationPipeline.__init__ around a freshly opened websocket. -/
def PipelineState.init : PipelineState :=
  { _close := false, sendQueue := [], receivedQueue := [], wsState := .OPEN, wsCloseCalls := 0 }

/-- CommunicationPipeline.close_websocket, as executed when actually driven:
invoke `websocket.close()` unless the state is CLOSING or CLOSED. -/
def close_websocket (s : PipelineState) : PipelineState :=
  if s.wsState = .CLOSING ∨ s.wsState = .CLOSED then s
  else { s with wsCloseCalls := s.wsCloseCalls + 1, wsState := .CLOSED }

/-- The body of CommunicationPipeline.close, as executed when the coroutine
is actually driven: return if the closed-flag is set, otherwise set it and
close the websocket. -/
def close_body (s : PipelineState) : PipelineState :=
  if s._close then s else close_websocket { s with _close := true }

/-- The effect of the call expression `self.close()` as it appears in the
source (e.g. in consume's finally block).  `close` contains `yield from`, so
in Python it is a generator function: calling it builds a generator object
that is never iterated, hence no statement of its body executes and the
pipeline state is unchanged. -/
def close_asCalled (s : PipelineState) : PipelineState := s

/-- One event delivered by `websocket.recv()` inside the consume loop: a
message frame, or the ConnectionClosed exception. -/
inductive WsRecvEvent where
  | msg (m : String)
  | connClosed
  deriving DecidableEq, Repr

/-- How a run of the consume loop ended: the closed-flag was observed by the
while condition, the transport reported ConnectionClosed, or the event list
ran out with `websocket.recv()` still pending (the loop is suspended). -/
inductive ConsumeExit where
  | flagObserved
  | connectionClosed
  | suspended
  deriving DecidableEq, Repr

/-- CommunicationPipeline.consume run against a finite list of transport
events: while the closed-flag is unset, receive an event and enqueue message
frames; a ConnectionClosed event takes the except branch.  Both exit paths
run the finally block, whose `self.close()` is `close_asCalled`. -/
def consume : List WsRecvEvent → PipelineState → PipelineState × ConsumeExit
  | [], s =>
    if s._close then (close_asCalled s, .flagObserved) else (s, .suspended)
  | e :: rest, s =>
    if s._close then (close_asCalled s, .flagObserved)
    else
      match e with
      | .msg m => consume rest { s with receivedQueue := queuePut s.receivedQueue m }
      | .connClosed => (close_asCalled s, .connectionClosed)

/-- `n` successive fully-driven `close()` calls. -/
def iterClose : Nat → PipelineState → PipelineState
  | 0, s => s
  | n + 1, s => iterClose n (close_body s)

/-- Result of CommunicationPipeline.recv_message: an exception, a suspension
on the empty received queue, or the next message with the updated state. -/
inductive RecvResult where
  | raised (msg : String)
  | suspended
  | received (m : String) (s : PipelineState)
  deriving DecidableEq, Repr

/-- CommunicationPipeline.recv_message: raise immediately when the
closed-flag is set; otherwise get the next message from the received queue
(suspending when it is empty). -/
def recv_message (s : PipelineState) : RecvResult :=
  if s._close then .raised "The websocket is closed or closing"
  else
    match queueGet s.receivedQueue with
    | none => .suspended
    | some (m, q) => .received m { s with receivedQueue := q }

/-! ## Registry well-formedness (name-keyed dict) -/

/-- The keys of the instruction dict, in insertion order. -/
def dictKeys (d : List (String × RPCInstruction)) : List String := d.map Prod.fst

/-- Invariant of every registry built by `register`: keys are unique (it is a
Python dict) and each stored instruction's `methodName` equals its key
(register always stores `RPCInstruction(name, method)` under `name`). -/
def RegistryWF (reg : List (String × RPCInstruction)) : Prop :=
  (dictKeys reg).Nodup ∧ ∀ p ∈ reg, p.2.methodName = p.1

/-- A sequence of register calls applied in order. -/
def registerAll (p : RPCProcessor) (pairs : List (String × PyMethod)) : RPCProcessor :=
  pairs.foldl (fun q r => q.register r.1 r.2) p

/-! ## Concrete inputs used by counterexamples and witnesses -/

/-- A concrete handler used in counterexamples. -/
def methodA : PyMethod := { argspec := { args := [], kwonlyargs := [] }, call := fun _ => .ok (.int 1) }

/-- A second, distinct concrete handler. -/
def methodB : PyMethod := { argspec := { args := [], kwonlyargs := [] }, call := fun _ => .ok (.int 2) }

/-- A request context whose payload is `\x7b"method": "dup"\x7d`. -/
def ctxDup : InstructionCtx :=
  { session := .int 0, payload := { method := some "dup", args := none, kargs := none } }

/-- A request context for a method with no registered handler. -/
def ctxNope : InstructionCtx :=
  { session := .int 0, payload := { method := some "nope", args := none, kargs := none } }

/-- A request context with an empty payload, used to drive queue operations. -/
def ctx0 : InstructionCtx :=
  { session := .int 0, payload := { method := none, args := none, kargs := none } }

/-- The fresh processor with a pending idle handle installed. -/
def procParked : RPCProcessor := { RPCProcessor.new with idleFuture := some none }

/-- The processor after co_push has enqueued ctx0 and fulfilled the handle. -/
def procFulfilled : RPCProcessor :=
  { RPCProcessor.new with executionQueue := [ctx0], idleFuture := some (some ctx0) }

/-- The processor after the resumed idle() has cleared the handle. -/
def procCleared : RPCProcessor :=
  { RPCProcessor.new with executionQueue := [ctx0], idleFuture := none }

/-- A handler declaring the reserved "__session__" parameter. -/
def methodS : PyMethod :=
  { argspec := { args := ["__session__"], kwonlyargs := [] }, call := fun _ => .ok (.int 0) }

/-- A request whose keyword-argument map itself binds "__session__". -/
def ctxOverride : InstructionCtx :=
  { session := .str "S",
    payload := { method := some "f", args := none,
                 kargs := some [("__session__", .str "EVIL")] } }

/-- A payload carrying a non-empty keyword map (and a positional list, to
exercise the precedence). -/
def payloadKw : Payload :=
  { method := some "f", args := some [.int 9], kargs := some [("x", .int 5)] }

/-- A payload carrying only a non-empty positional list. -/
def payloadPos : Payload :=
  { method := some "f", args := some [.int 1, .int 2], kargs := none }

/-- A payload with an empty keyword map and no positional list. -/
def payloadEmptyish : Payload :=
  { method := some "f", args := none, kargs := some [] }

theorem canHandle_iff (inst : RPCInstruction) (ctx : InstructionCtx) :
    inst.canHandleInstruction ctx = true ↔ ctx.payload.method = some inst.methodName := by
  unfold RPCInstruction.canHandleInstruction
  cases h : ctx.payload.method with
  | none => simp
  | some m => simp

theorem dictInsert_replace_keys (reg : List (String × RPCInstruction)) (k : String)
    (v : RPCInstruction) :
    dictKeys (reg.map (fun p => if p.1 == k then (k, v) else p)) = dictKeys reg := by
  induction reg with
  | nil => rfl
  | cons p t ih =>
    simp only [dictKeys, List.map_cons] at *
    by_cases h : p.1 == k
    · simp only [h, if_pos]
      rw [ih, eq_of_beq h]
    · simp only [h, if_neg]
      simp [ih]
      intro a b _
      by_cases ha : a = k
      · simp [ha]
      · simp [ha]

theorem dictInsert_wf (reg : List (String × RPCInstruction)) (k : String) (m : PyMethod)
    (h : RegistryWF reg) : RegistryWF (dictInsert reg k ⟨k, m⟩) := by
  obtain ⟨hnd, hval⟩ := h
  unfold dictInsert
  by_cases hany : reg.any (fun p => p.1 == k) = true
  · simp only [hany, if_pos]
    constructor
    · rw [dictInsert_replace_keys]; exact hnd
    · intro q hq
      rcases List.mem_map.mp hq with ⟨p, hp, hpq⟩
      by_cases hk : p.1 == k
      · simp only [hk, if_pos] at hpq; subst hpq; rfl
      · simp only [hk, if_neg] at hpq; subst hpq; exact hval p hp
  · simp only [hany, if_neg, Bool.not_eq_true]
    have hnot : ∀ p ∈ reg, p.1 ≠ k := by
      intro p hp hpk
      exact hany (List.any_eq_true.mpr ⟨p, hp, by simp [hpk]⟩)
    constructor
    · rw [dictKeys, List.map_append]
      rw [List.nodup_append]
      refine ⟨hnd, by simp, ?_⟩
      intro a ha hb
      simp only [List.map_cons, List.map_nil, List.mem_singleton] at hb
      rcases List.mem_map.mp ha with ⟨p, hp, hpa⟩
      exact hnot p hp (hpa ▸ hb)
    · intro q hq
      rcases List.mem_append.mp hq with hq | hq
      · exact hval q hq
      · simp only [List.mem_singleton] at hq; subst hq; rfl

theorem registerAll_wf (pairs : List (String × PyMethod)) (p : RPCProcessor)
    (h : RegistryWF p.instructions) : RegistryWF (registerAll p pairs).instructions := by
  induction pairs generalizing p with
  | nil => exact h
  | cons r t ih => exact ih _ (dictInsert_wf _ _ _ h)

theorem suitable_length_le_one (reg : List (String × RPCInstruction)) (ctx : InstructionCtx)
    (h : RegistryWF reg) : (suitableInstructions reg ctx).length ≤ 1 := by
  induction reg with
  | nil => simp [suitableInstructions]
  | cons p t ih =>
    obtain ⟨hnd, hval⟩ := h
    simp only [dictKeys, List.map_cons, List.nodup_cons] at hnd
    obtain ⟨hnotmem, hndt⟩ := hnd
    simp only [suitableInstructions, List.map_cons, List.filter_cons]
    by_cases hcan : p.2.canHandleInstruction ctx = true
    · simp only [hcan, if_pos]
      have hmeth : ctx.payload.method = some p.1 := by
        rw [← hval p (List.mem_cons_self p t)]
        exact (canHandle_iff p.2 ctx).mp hcan
      have hrest : (List.map Prod.snd t).filter (fun inst => inst.canHandleInstruction ctx) = [] := by
        rw [List.filter_eq_nil_iff]
        intro q hq
        rcases List.mem_map.mp hq with ⟨r, hr, hrq⟩
        intro hcq
        have h1 : ctx.payload.method = some q.methodName := (canHandle_iff q ctx).mp hcq
        have h2 : q.methodName = r.1 := hrq ▸ hval r (List.mem_cons_of_mem _ hr)
        rw [h1, h2] at hmeth
        have h3 : r.1 = p.1 := Option.some.inj hmeth
        exact hnotmem (h3 ▸ List.mem_map.mpr ⟨r, hr, rfl⟩)
      rw [hrest]
      simp
    · simp only [hcan, if_neg]
      exact ih ⟨hndt, fun q hq => hval q (List.mem_cons_of_mem _ hq)⟩

/-! ## Claims C1 and C2: duplicate registration and the multiple-match branch -/

/-- C1 counterexample: registering `methodA` then `methodB` under the name
"dup" and dispatching `\x7b"method": "dup"\x7d` through findSuitableInstruction
resolves an instruction (the second handler), with the unique-match outcome —
not the claimed no-instruction, error-logged, zero-match-like outcome.  The
registry is a name-keyed dict, so the second registration replaced the
first. -/
theorem C1_counterexample :
    (findSuitableInstruction
        ((RPCProcessor.new.register "dup" methodA).register "dup" methodB).instructions
        ctxDup).1
      = some ⟨"dup", methodB⟩ ∧
    (findSuitableInstruction
        ((RPCProcessor.new.register "dup" methodA).register "dup" methodB).instructions
        ctxDup).2
      = MatchOutcome.unique :=
  ⟨rfl, rfl⟩

/-- C1 (amended): after registering two handlers under the same name "dup",
the second registration has replaced the first in the name-keyed registry; a
dispatch of a request whose payload is `\x7b"method": "dup"\x7d` through
findSuitableInstruction resolves exactly one instruction — the most recently
registered handler — with the unique-match outcome (no error logged, unlike
the zero-match case). -/
theorem C1_duplicate_name_latest_wins (f g : PyMethod) (sess : Value) :
    findSuitableInstruction
        ((RPCProcessor.new.register "dup" f).register "dup" g).instructions
        { session := sess, payload := { method := some "dup", args := none, kargs := none } }
      = (some ⟨"dup", g⟩, MatchOutcome.unique) := by
  rfl

/-- C2: for every sequence of register calls starting from a fresh processor
and every request context, at most one stored binding's canHandleInstruction
predicate is true, so the multiple-match (error-logging) branch of
findSuitableInstruction is never taken. -/
theorem C2_multiple_match_unreachable (pairs : List (String × PyMethod)) (ctx : InstructionCtx) :
    (suitableInstructions (registerAll RPCProcessor.new pairs).instructions ctx).length ≤ 1 ∧
    (findSuitableInstruction (registerAll RPCProcessor.new pairs).instructions ctx).2
      ≠ MatchOutcome.ambiguous := by
  have hwf : RegistryWF (registerAll RPCProcessor.new pairs).instructions :=
    registerAll_wf pairs RPCProcessor.new ⟨List.nodup_nil, by simp [RPCProcessor.new]⟩
  have hlen := suitable_length_le_one _ ctx hwf
  refine ⟨hlen, ?_⟩
  unfold findSuitableInstruction
  rcases Nat.le_one_iff_eq_zero_or_eq_one.mp hlen with h0 | h1
  · simp [h0]
  · simp [h1]

/-! ## Claims C3, C4, C10: pipeline shutdown and recv -/

/-- C3: the code contradicts the claim.  `close` is a generator function
(its body contains `yield from`), and the consume loop's finally block calls
`self.close()` without driving the resulting generator, so no statement of
close's body runs.  Running consume on a fresh pipeline whose transport
immediately reports ConnectionClosed therefore terminates through the
except/finally path with the closed-flag still false and zero
`websocket.close()` invocations — the claim (and the code's evident intent)
says the flag is true and the connection torn down. -/
theorem C3_consume_close_never_executes :
    (consume [WsRecvEvent.connClosed] PipelineState.init).2 = ConsumeExit.connectionClosed ∧
    (consume [WsRecvEvent.connClosed] PipelineState.init).1._close = false ∧
    (consume [WsRecvEvent.connClosed] PipelineState.init).1.wsCloseCalls = 0 := by
  decide

theorem close_body_of_closed (s : PipelineState) (h : s._close = true) : close_body s = s := by
  unfold close_body
  rw [h]
  simp

theorem iterClose_of_closed (n : Nat) (s : PipelineState) (h : s._close = true) :
    iterClose n s = s := by
  induction n with
  | zero => rfl
  | succ k ih =>
    show iterClose k (close_body s) = s
    rw [close_body_of_closed s h]
    exact ih

/-- C4: a fully-driven close() is idempotent.  From a pipeline whose
closed-flag is unset and whose websocket is open, any number n ≥ 1 of
sequential close() executions flips the closed-flag once and invokes the
underlying `websocket.close()` exactly once: the first execution flips the
flag and closes the transport, every later execution returns at the
early-exit guard.  (The event-loop model is sequential, which is how the
single-threaded asyncio scheduler interleaves the callers.) -/
theorem C4_close_idempotent (n : Nat) (s : PipelineState) (hn : 1 ≤ n)
    (hflag : s._close = false) (hws : s.wsState = WsStateName.OPEN) :
    (iterClose n s).wsCloseCalls = s.wsCloseCalls + 1 ∧ (iterClose n s)._close = true := by
  obtain ⟨k, rfl⟩ : ∃ k, n = k + 1 := ⟨n - 1, by omega⟩
  have h1 : close_body s =
      { s with _close := true, wsState := .CLOSED, wsCloseCalls := s.wsCloseCalls + 1 } := by
    unfold close_body close_websocket
    rw [hflag]
    simp [hws]
  show (iterClose k (close_body s)).wsCloseCalls = s.wsCloseCalls + 1 ∧
    (iterClose k (close_body s))._close = true
  rw [h1, iterClose_of_closed k _ rfl]
  exact ⟨rfl, rfl⟩

theorem C4_close_idempotent_witness :
    1 ≤ 2 ∧
    ((iterClose 2 PipelineState.init).wsCloseCalls = PipelineState.init.wsCloseCalls + 1 ∧
      (iterClose 2 PipelineState.init)._close = true) :=
  ⟨by decide, C4_close_idempotent 2 PipelineState.init (by decide) rfl rfl⟩

/-- C10: whenever the closed-flag is set at call time, recv_message raises
the pipeline-closed condition immediately — for every queue content,
including the empty queue on which it would otherwise suspend. -/
theorem C10_recv_message_after_close (s : PipelineState) (h : s._close = true) :
    recv_message s = RecvResult.raised "The websocket is closed or closing" := by
  unfold recv_message
  rw [h]
  simp

theorem C10_recv_message_after_close_witness :
    ({ PipelineState.init with _close := true } : PipelineState)._close = true ∧
    recv_message { PipelineState.init with _close := true }
      = RecvResult.raised "The websocket is closed or closing" :=
  ⟨rfl, C10_recv_message_after_close _ rfl⟩

/-! ## Claims C5, C7, C9: step finalization, idle wait, FIFO order -/

/-- C5: for every request context processed by the body of step() (after the
dequeue), the context is finalized (done) exactly once on every exit path;
when no instruction resolves, step raises UnknownRemoteProcedure named after
the requested method; on every failing path the context's error field holds
the propagated exception; on success the return value is stored. -/
theorem C5_step_finalizes_once (p : RPCProcessor) (ctx : InstructionCtx) (m : String)
    (hm : ctx.payload.method = some m) :
    (p.stepBody ctx).1.doneCount = ctx.doneCount + 1 ∧
    ((findSuitableInstruction p.instructions ctx).1 = none →
      (p.stepBody ctx).2 = Except.error (PyError.unknownRemoteProcedure m) ∧
      (p.stepBody ctx).1.error = some (PyError.unknownRemoteProcedure m)) ∧
    (∀ e : PyError, (p.stepBody ctx).2 = Except.error e → (p.stepBody ctx).1.error = some e) ∧
    ((p.stepBody ctx).2 = Except.ok () → ∃ v, (p.stepBody ctx).1.ret = some v) := by
  unfold RPCProcessor.stepBody
  cases hfind : (findSuitableInstruction p.instructions ctx).1 with
  | none => simp [hm, InstructionCtx.done]
  | some inst =>
    cases hex : (RPCExecutionContext.ofCtx ctx).execute inst.method with
    | ok v => simp [hex, InstructionCtx.done]
    | error e => simp [hex, InstructionCtx.done]

theorem C5_step_finalizes_once_witness :
    ctxNope.payload.method = some "nope" ∧
    ((RPCProcessor.new.stepBody ctxNope).1.doneCount = ctxNope.doneCount + 1 ∧
      ((findSuitableInstruction RPCProcessor.new.instructions ctxNope).1 = none →
        (RPCProcessor.new.stepBody ctxNope).2
          = Except.error (PyError.unknownRemoteProcedure "nope") ∧
        (RPCProcessor.new.stepBody ctxNope).1.error
          = some (PyError.unknownRemoteProcedure "nope")) ∧
      (∀ e : PyError, (RPCProcessor.new.stepBody ctxNope).2 = Except.error e →
        (RPCProcessor.new.stepBody ctxNope).1.error = some e) ∧
      ((RPCProcessor.new.stepBody ctxNope).2 = Except.ok () →
        ∃ v, (RPCProcessor.new.stepBody ctxNope).1.ret = some v)) :=
  ⟨rfl, C5_step_finalizes_once RPCProcessor.new ctxNope "nope" rfl⟩

/-- C7: the single-slot idle wait.  (The idle handle is by construction a
single Option-valued slot, so at most one is outstanding at any time.)  When
the execution queue is non-empty, idle() returns immediately and touches
nothing; when it is empty and no handle is outstanding, idle() parks on a
fresh pending handle, the next co_push fulfils exactly that handle with the
pushed context (raising nothing), and the resumed idle() clears the handle
back to absent. -/
theorem C7_idle_single_slot (p : RPCProcessor) (c : InstructionCtx) :
    (p.executionQueue ≠ [] → p.idle_enter = IdleEnter.immediate p) ∧
    (p.executionQueue = [] → p.idleFuture = none →
      p.idle_enter = IdleEnter.parked { p with idleFuture := some none } ∧
      ({ p with idleFuture := some none } : RPCProcessor).co_push c
        = ({ p with executionQueue := [c], idleFuture := some (some c) }, none) ∧
      ({ p with executionQueue := [c], idleFuture := some (some c) } : RPCProcessor).idle_resume
        = some (c, { p with executionQueue := [c], idleFuture := none })) := by
  constructor
  · intro hne
    unfold RPCProcessor.idle_enter
    simp [hne]
  · intro hq hf
    obtain ⟨ins, q, f⟩ := p
    simp only at hq hf
    subst hq
    subst hf
    exact ⟨rfl, rfl, rfl⟩

theorem C7_idle_single_slot_witness :
    RPCProcessor.new.executionQueue = [] ∧ RPCProcessor.new.idleFuture = none ∧
    (RPCProcessor.new.idle_enter = IdleEnter.parked procParked ∧
      procParked.co_push ctx0 = (procFulfilled, none) ∧
      procFulfilled.idle_resume = some (ctx0, procCleared)) :=
  ⟨rfl, rfl, (C7_idle_single_slot RPCProcessor.new ctx0).2 rfl rfl⟩

theorem co_push_queue (p : RPCProcessor) (c : InstructionCtx) :
    (p.co_push c).1.executionQueue = p.executionQueue ++ [c] := by
  unfold RPCProcessor.co_push queuePut
  cases hf : p.idleFuture with
  | none => rfl
  | some o =>
    cases o with
    | none => rfl
    | some c2 => rfl

theorem pushAll_queue (cs : List InstructionCtx) (p : RPCProcessor) :
    (p.pushAll cs).executionQueue = p.executionQueue ++ cs := by
  induction cs generalizing p with
  | nil => simp [RPCProcessor.pushAll]
  | cons c t ih =>
    show ((p.co_push c).1.pushAll t).executionQueue = _
    rw [ih, co_push_queue p c]
    simp

theorem stepsDequeued_all (q : List InstructionCtx) (p : RPCProcessor)
    (h : p.executionQueue = q) : p.stepsDequeued q.length = q := by
  induction q generalizing p with
  | nil => rfl
  | cons c t ih =>
    have hstep : p.step
        = some ({ p with executionQueue := t }, c, (p.stepBody c).1, (p.stepBody c).2) := by
      unfold RPCProcessor.step
      rw [h]
      rfl
    show (match p.step with
      | none => []
      | some (p1, c0, _, _) => c0 :: p1.stepsDequeued t.length) = c :: t
    rw [hstep]
    show c :: ({ p with executionQueue := t } : RPCProcessor).stepsDequeued t.length = c :: t
    rw [ih { p with executionQueue := t } rfl]

/-- C9: for every sequence of push calls on a fresh RPC Processor, successive
step() calls dequeue the pushed request contexts in FIFO order — the order in
which push was called. -/
theorem C9_push_step_fifo (cs : List InstructionCtx) :
    (RPCProcessor.new.pushAll cs).stepsDequeued cs.length = cs := by
  apply stepsDequeued_all
  rw [pushAll_queue]
  rfl

/-! ## Claims C6 and C8: argument derivation and session injection -/

/-- C6 counterexample: for a handler declaring "__session__" and a request
executed with session handle "S" whose payload keyword map carries
"__session__" bound to "EVIL", the merge `kargs = \x7b**kargs, **self.args\x7d`
lets the payload override the injected handle: the handler is called with the
session keyword bound to "EVIL", not to the caller's session handle — against
the claim's "regardless of which argument style was chosen". -/
theorem C6_counterexample :
    ((RPCExecutionContext.ofCtx ctxOverride).bindArgs methodS).kw.lookup "__session__"
      = some (Value.str "EVIL") ∧
    ((RPCExecutionContext.ofCtx ctxOverride).bindArgs methodS).kw.lookup "__session__"
      ≠ some ctxOverride.session := by
  constructor
  · rfl
  · decide

/-- C6 (amended): for every handler whose declared parameters include
"__session__", execution through the RPC Execution Context calls the handler
with the session keyword bound to the caller's session handle in both
argument styles, provided the keyword-argument map (when that style is
chosen) does not itself carry the reserved name — a payload key
"__session__" overrides the injection.  In particular a session-declaring
handler executed with session handle S and payload `\x7b"args": [1,2]\x7d` is
called with positional arguments (1,2) and "__session__" bound to S. -/
theorem C6_session_injection (m : PyMethod)
    (hdecl : (m.argspec.args.contains "__session__"
        || m.argspec.kwonlyargs.contains "__session__") = true) :
    (∀ ec : RPCExecutionContext,
      (∀ d, ec.args = PyArgs.dict d → d.lookup "__session__" = none) →
      (ec.bindArgs m).kw.lookup "__session__" = some ec.session) ∧
    (∀ S : Value,
      (RPCExecutionContext.ofCtx
          { session := S,
            payload := { method := some "f", args := some [.int 1, .int 2],
                         kargs := none } }).bindArgs m
        = { pos := [Value.int 1, Value.int 2], kw := [("__session__", S)] }) := by
  constructor
  · intro ec hno
    unfold RPCExecutionContext.bindArgs sessionKargs
    rw [hdecl]
    cases ha : ec.args with
    | dict d =>
      have hd := hno d ha
      simp [dictMerge, hd, List.lookup]
    | list l => simp [List.lookup]
  · intro S
    unfold RPCExecutionContext.ofCtx RPCExecutionContext.bindArgs sessionKargs
    rw [hdecl]
    rfl

theorem C6_session_injection_witness :
    ((methodS.argspec.args.contains "__session__"
        || methodS.argspec.kwonlyargs.contains "__session__") = true) ∧
    (RPCExecutionContext.ofCtx
        { session := Value.str "S",
          payload := { method := some "f", args := some [.int 1, .int 2],
                       kargs := none } }).bindArgs methodS
      = { pos := [Value.int 1, Value.int 2], kw := [("__session__", Value.str "S")] } :=
  ⟨by decide, (C6_session_injection methodS (by decide)).2 (Value.str "S")⟩

/-- C8: the Execution Context derives call arguments from the payload with
the stated precedence.  A present, non-empty keyword map is used as keyword
arguments (merged over the session injection); otherwise a present, non-empty
positional list is used as positional arguments; otherwise the handler is
called with no payload-derived arguments (empty positional list, keyword map
reduced to the session injection alone). -/
theorem C8_argument_precedence (pl : Payload) (sess : Value) (m : PyMethod) :
    (∀ d, pl.kargs = some d → d ≠ [] →
      (RPCExecutionContext.ofCtx { session := sess, payload := pl }).args = PyArgs.dict d ∧
      (RPCExecutionContext.ofCtx { session := sess, payload := pl }).bindArgs m
        = { pos := [], kw := dictMerge (sessionKargs m sess) d }) ∧
    ((pl.kargs = none ∨ pl.kargs = some []) → ∀ l, pl.args = some l → l ≠ [] →
      (RPCExecutionContext.ofCtx { session := sess, payload := pl }).args = PyArgs.list l ∧
      (RPCExecutionContext.ofCtx { session := sess, payload := pl }).bindArgs m
        = { pos := l, kw := sessionKargs m sess }) ∧
    ((pl.kargs = none ∨ pl.kargs = some []) → (pl.args = none ∨ pl.args = some []) →
      (RPCExecutionContext.ofCtx { session := sess, payload := pl }).args = PyArgs.list [] ∧
      (RPCExecutionContext.ofCtx { session := sess, payload := pl }).bindArgs m
        = { pos := [], kw := sessionKargs m sess }) := by
  refine ⟨?_, ?_, ?_⟩
  · intro d hk hne
    have hargs : (RPCExecutionContext.ofCtx { session := sess, payload := pl }).args
        = PyArgs.dict d := by
      unfold RPCExecutionContext.ofCtx
      simp [hk, hne]
    refine ⟨hargs, ?_⟩
    unfold RPCExecutionContext.bindArgs
    rw [hargs]
    rfl
  · intro hk0 l ha hne
    have hargs : (RPCExecutionContext.ofCtx { session := sess, payload := pl }).args
        = PyArgs.list l := by
      unfold RPCExecutionContext.ofCtx
      rcases hk0 with hk | hk <;> simp [hk, ha, hne]
    refine ⟨hargs, ?_⟩
    unfold RPCExecutionContext.bindArgs
    rw [hargs]
    rfl
  · intro hk0 ha0
    have hargs : (RPCExecutionContext.ofCtx { session := sess, payload := pl }).args
        = PyArgs.list [] := by
      unfold RPCExecutionContext.ofCtx
      rcases hk0 with hk | hk <;> rcases ha0 with ha | ha <;> simp [hk, ha]
    refine ⟨hargs, ?_⟩
    unfold RPCExecutionContext.bindArgs
    rw [hargs]
    rfl

theorem C8_argument_precedence_witness :
    ((RPCExecutionContext.ofCtx { session := Value.int 0, payload := payloadKw }).args
        = PyArgs.dict [("x", Value.int 5)] ∧
      (RPCExecutionContext.ofCtx { session := Value.int 0, payload := payloadKw }).bindArgs
          methodA
        = { pos := [],
            kw := dictMerge (sessionKargs methodA (Value.int 0)) [("x", Value.int 5)] }) ∧
    ((RPCExecutionContext.ofCtx { session := Value.int 0, payload := payloadPos }).args
        = PyArgs.list [Value.int 1, Value.int 2] ∧
      (RPCExecutionContext.ofCtx { session := Value.int 0, payload := payloadPos }).bindArgs
          methodA
        = { pos := [Value.int 1, Value.int 2], kw := sessionKargs methodA (Value.int 0) }) ∧
    ((RPCExecutionContext.ofCtx { session := Value.int 0, payload := payloadEmptyish }).args
        = PyArgs.list [] ∧
      (RPCExecutionContext.ofCtx { session := Value.int 0, payload := payloadEmptyish }).bindArgs
          methodA
        = { pos := [], kw := sessionKargs methodA (Value.int 0) }) :=
  ⟨(C8_argument_precedence payloadKw (Value.int 0) methodA).1
      [("x", Value.int 5)] rfl (by decide),
    (C8_argument_precedence payloadPos (Value.int 0) methodA).2.1
      (Or.inl rfl) [Value.int 1, Value.int 2] rfl (by decide),
    (C8_argument_precedence payloadEmptyish (Value.int 0) methodA).2.2
      (Or.inr rfl) (Or.inl rfl)⟩
